import Mathlib

/-!
Verification of the MP4 → MP3 batch converter (streamlit_app.py).

The Python source is shallowly embedded: each Python function becomes a Lean
function over explicit data.  The external transcoder process (ffmpeg) is an
oracle: a value describing how the launched process behaved (exit code and
diagnostic stream, timeout, launch exception) and what state it left at the
output path.  The Workspace (the flat OUTPUT_DIR directory) is a list of the
base names of the files it contains; temporary files (which live outside the
Workspace) are a second list.  Strings are Lean strings; Python string
operations (strip, split, lower, endswith, Path.stem, Path.name) are embedded
over the underlying character lists.
-/

/-- Python character-class for str.strip with no argument: ASCII whitespace
(space, tab, newline, carriage return, vertical tab, form feed). -/
def pyIsSpace (c : Char) : Bool :=
  c = ' ' || c = '\t' || c = '\n' || c = '\r' || c = '\x0b' || c = '\x0c'

/-- Python str.strip(): drop whitespace from both ends (on character lists). -/
def pyStrip (l : List Char) : List Char :=
  ((l.dropWhile pyIsSpace).reverse.dropWhile pyIsSpace).reverse

/-- Helper for Python str.split over a single-character separator:
returns the first field and the remaining fields. -/
def splitNlAux : List Char → List Char × List (List Char)
  | [] => ([], [])
  | c :: cs =>
    let r := splitNlAux cs
    if c = '\n' then ([], r.1 :: r.2) else (c :: r.1, r.2)

/-- Python s.split with separator newline: always a nonempty list of fields. -/
def splitNl (l : List Char) : List (List Char) :=
  (splitNlAux l).1 :: (splitNlAux l).2

/-- Embedding of result.stderr.strip().split with separator newline, indexed
at -1 (the last field; split never returns an empty list, so the default of
getLastD is never used). From src/streamlit_app.py line 44. -/
def codeLastStderrLine (stderr : List Char) : List Char :=
  (splitNl (pyStrip stderr)).getLastD []

/-- Python s.lower(), restricted to ASCII case mapping (file extensions are
ASCII, which is all the validator compares). -/
def lowerStr (s : String) : String :=
  String.mk (s.data.map Char.toLower)

/-- Python s.endswith(suffix): suffix relation on the character lists. -/
def strEndsWith (s suffix : String) : Bool :=
  decide (suffix.data <:+ s.data)

/-- Python pathlib Path(p).name: the part of p after the last slash. -/
def pathName (p : String) : String :=
  String.mk ((p.data.reverse.takeWhile (fun c => c ≠ '/')).reverse)

/-- Index of the last dot of a character list (Python name.rfind), if any. -/
def rfindDot (l : List Char) : Option Nat :=
  (l.reverse.findIdx? (fun c => c = '.')).map (fun k => l.length - 1 - k)

/-- Python pathlib Path(p).stem: the final component with its extension
removed; a leading dot or a trailing dot is not an extension separator. -/
def pyStem (p : String) : String :=
  let nm := (pathName p).data
  match rfindDot nm with
  | some i => if 0 < i ∧ i < nm.length - 1 then String.mk (nm.take i) else String.mk nm
  | none => String.mk nm

/-- An uploaded item as the validator sees it: metadata only. -/
structure UploadedItem where
  name : String
  size : Nat
deriving DecidableEq, Repr

/-- Embedding of validate_file (src/streamlit_app.py lines 65-75):
verdict boolean plus reason string, rules in source order. -/
def validate_file (f : UploadedItem) : Bool × String :=
  if ¬ strEndsWith (lowerStr f.name) ".mp4" then
    (false, "'" ++ f.name ++ "' não é um arquivo .mp4")
  else if f.size = 0 then
    (false, "'" ++ f.name ++ "' está vazio")
  else if f.size > 500 * 1024 * 1024 then
    (false, "'" ++ f.name ++ "' excede 500 MB")
  else
    (true, "")

/-- How a launched external process behaved, as seen by subprocess.run:
a normal exit (return code and captured diagnostic stream), a
FileNotFoundError, a TimeoutExpired, or any other launch exception
(for example a PermissionError), carrying the text of the exception. -/
inductive LaunchOutcome where
  | exited (returncode : Int) (stderr : List Char)
  | notFound (msg : String)
  | timedOut
  | otherError (msg : String)
deriving DecidableEq, Repr

/-- Embedding of check_ffmpeg (src/streamlit_app.py lines 13-23).  The try
block catches only FileNotFoundError and TimeoutExpired; any other exception
escapes the function, modelled by the error side of Except. -/
def check_ffmpeg (run : LaunchOutcome) : Except String Bool :=
  match run with
  | .exited rc _ => .ok (rc == 0)
  | .notFound _ => .ok false
  | .timedOut => .ok false
  | .otherError msg => .error msg

/-- Oracle for one ffmpeg conversion run: how the process behaved, and
whether the output path exists afterwards and with what size (ffmpeg, not
the Python code, writes the output file, so the post-state is part of the
oracle; a timed-out or failed run may well have left a partial file). -/
structure FfmpegRun where
  outcome : LaunchOutcome
  outExists : Bool
  outSize : Nat
deriving DecidableEq, Repr

/-- Result dictionary of convert_mp4_to_mp3: success, or failure with an
error message. -/
inductive ConvResult where
  | ok
  | fail (error : String)
deriving DecidableEq, Repr

/-- Truthiness of the success field. -/
def ConvResult.isOk : ConvResult → Bool
  | .ok => true
  | .fail _ => false

/-- The error field (empty for a success, which never reads it). -/
def ConvResult.errMsg : ConvResult → String
  | .ok => ""
  | .fail e => e

/-- Embedding of convert_mp4_to_mp3 (src/streamlit_app.py lines 26-54).
Nonzero exit: fail with the last field of the stripped diagnostic stream.
Zero exit but missing or empty output: fail with a fixed message.  The
except clauses: TimeoutExpired gives the fixed timeout message, and every
other exception (FileNotFoundError included) is caught by the generic
handler and reported as its text, so the function is total. -/
def convert_mp4_to_mp3 (run : FfmpegRun) : ConvResult :=
  match run.outcome with
  | .exited rc stderr =>
    if rc ≠ 0 then .fail (String.mk (codeLastStderrLine stderr))
    else if !run.outExists || run.outSize == 0 then .fail "Arquivo de saída vazio ou não criado."
    else .ok
  | .notFound msg => .fail msg
  | .timedOut => .fail "Timeout: conversão demorou mais de 5 minutos."
  | .otherError msg => .fail msg

/-- The name under which the bundle archive is created in the Workspace. -/
def zipName : String := "todos_mp3.zip"

/-- Embedding of the clearing step (src/streamlit_app.py lines 128-132):
unlink every file of OUTPUT_DIR matching glob *.mp3, then unlink
todos_mp3.zip if present.  The Workspace is the list of base names of the
files in OUTPUT_DIR. -/
def resetWorkspace (ws : List String) : List String :=
  ws.filter (fun n => !(strEndsWith n ".mp3") && n ≠ zipName)

/-- Embedding of create_zip (src/streamlit_app.py lines 57-62): writes the
archive todos_mp3.zip into the Workspace; each given file is stored under
its base name (zf.write f f.name), in order.  Returns the new Workspace
contents and the list of archive entry names. -/
def create_zip (ws : List String) (mp3_files : List String) :
    List String × List String :=
  (if zipName ∈ ws then ws else ws ++ [zipName], mp3_files.map pathName)

/-- Oracle for one queued item of a batch run: the item metadata, the name
subprocess gave the temporary input copy, and how the ffmpeg run behaved. -/
structure ItemRun where
  item : UploadedItem
  tmpName : String
  ffmpeg : FfmpegRun
deriving DecidableEq, Repr

/-- The state threaded through one batch run: Workspace contents, live
temporary files, converted output paths, error strings, and the bundle. -/
structure BatchState where
  ws : List String
  temps : List String
  converted : List String
  errors : List String
  zipCreated : Bool
  zipEntries : List String
deriving DecidableEq, Repr

/-- Output file base name for an uploaded name
(src/streamlit_app.py line 149: stem plus the mp3 extension). -/
def mp3NameOf (uploadedName : String) : String :=
  pyStem uploadedName ++ ".mp3"

/-- Output path for an uploaded name (line 150: OUTPUT_DIR / mp3_name). -/
def outputPathOf (uploadedName : String) : String :=
  "output/" ++ mp3NameOf uploadedName

/-- Embedding of one iteration of the conversion loop
(src/streamlit_app.py lines 140-159): write the temporary input copy, run
convert_mp4_to_mp3, unlink the temporary copy (missing_ok), then append the
output path to converted_files on success or the formatted error string
otherwise.  The Workspace afterwards holds the output base name exactly when
the oracle says the output path exists after the ffmpeg run. -/
def processItem (st : BatchState) (r : ItemRun) : BatchState :=
  let temps0 := st.temps ++ [r.tmpName]
  let mp3_name := mp3NameOf r.item.name
  let output_path := "output/" ++ mp3_name
  let result := convert_mp4_to_mp3 r.ffmpeg
  let ws1 := if r.ffmpeg.outExists then
      (if mp3_name ∈ st.ws then st.ws else st.ws ++ [mp3_name])
    else st.ws.filter (fun n => n ≠ mp3_name)
  let temps1 := temps0.filter (fun n => n ≠ r.tmpName)
  if result.isOk then
    { st with ws := ws1, temps := temps1,
              converted := st.converted ++ [output_path] }
  else
    { st with ws := ws1, temps := temps1,
              errors := st.errors ++ [r.item.name ++ ": " ++ result.errMsg] }

/-- The state at the start of a batch run, right after the clearing step
(src/streamlit_app.py lines 128-135): Workspace cleared, empty accumulators,
and before any new output has been written. -/
def initState (ws : List String) : BatchState :=
  { ws := resetWorkspace ws, temps := [], converted := [],
    errors := [], zipCreated := false, zipEntries := [] }

/-- Embedding of the batch run (the button block, src/streamlit_app.py
lines 127-197): clear the Workspace, process the accepted queue in order,
then create the bundle exactly when more than one file was converted. -/
def runBatch (ws : List String) (runs : List ItemRun) : BatchState :=
  let st := runs.foldl processItem (initState ws)
  if st.converted.length > 1 then
    let z := create_zip st.ws st.converted
    { st with ws := z.1, zipCreated := true, zipEntries := z.2 }
  else st

/-- The successes of a list of item runs, in order: output paths of the
items whose conversion succeeded. -/
def successesOf (runs : List ItemRun) : List String :=
  (runs.filter (fun r => (convert_mp4_to_mp3 r.ffmpeg).isOk)).map
    (fun r => outputPathOf r.item.name)

/-- The failures of a list of item runs, in order: formatted name-message
strings of the items whose conversion failed. -/
def failuresOf (runs : List ItemRun) : List String :=
  (runs.filter (fun r => !(convert_mp4_to_mp3 r.ffmpeg).isOk)).map
    (fun r => r.item.name ++ ": " ++ (convert_mp4_to_mp3 r.ffmpeg).errMsg)

/-- Modelled from the spec: the last non-empty line of the diagnostic
stream (the lines of stderr that are not the empty string, last one). -/
def specLastNonEmptyLine (stderr : List Char) : List Char :=
  ((splitNl stderr).filter (fun l => !l.isEmpty)).getLastD []

theorem processItem_converted (st : BatchState) (r : ItemRun) :
    (processItem st r).converted =
      if (convert_mp4_to_mp3 r.ffmpeg).isOk then
        st.converted ++ [outputPathOf r.item.name]
      else st.converted := by
  by_cases h : (convert_mp4_to_mp3 r.ffmpeg).isOk <;>
    simp [processItem, outputPathOf, mp3NameOf, h]

theorem processItem_errors (st : BatchState) (r : ItemRun) :
    (processItem st r).errors =
      if (convert_mp4_to_mp3 r.ffmpeg).isOk then st.errors
      else st.errors ++
        [r.item.name ++ ": " ++ (convert_mp4_to_mp3 r.ffmpeg).errMsg] := by
  by_cases h : (convert_mp4_to_mp3 r.ffmpeg).isOk <;> simp [processItem, h]

theorem processItem_zipCreated (st : BatchState) (r : ItemRun) :
    (processItem st r).zipCreated = st.zipCreated := by
  by_cases h : (convert_mp4_to_mp3 r.ffmpeg).isOk <;> simp [processItem, h]

theorem processItem_zipEntries (st : BatchState) (r : ItemRun) :
    (processItem st r).zipEntries = st.zipEntries := by
  by_cases h : (convert_mp4_to_mp3 r.ffmpeg).isOk <;> simp [processItem, h]

theorem processItem_ws (st : BatchState) (r : ItemRun) :
    (processItem st r).ws =
      if r.ffmpeg.outExists then
        (if mp3NameOf r.item.name ∈ st.ws then st.ws
         else st.ws ++ [mp3NameOf r.item.name])
      else st.ws.filter (fun n => n ≠ mp3NameOf r.item.name) := by
  by_cases h : (convert_mp4_to_mp3 r.ffmpeg).isOk <;> simp [processItem, h]

theorem foldl_processItem_converted (runs : List ItemRun) :
    ∀ st : BatchState,
      (runs.foldl processItem st).converted = st.converted ++ successesOf runs := by
  induction runs with
  | nil => intro st; simp [successesOf]
  | cons r rs ih =>
    intro st
    rw [List.foldl_cons, ih, processItem_converted]
    by_cases h : (convert_mp4_to_mp3 r.ffmpeg).isOk <;>
      simp [successesOf, List.filter_cons, h]

theorem foldl_processItem_errors (runs : List ItemRun) :
    ∀ st : BatchState,
      (runs.foldl processItem st).errors = st.errors ++ failuresOf runs := by
  induction runs with
  | nil => intro st; simp [failuresOf]
  | cons r rs ih =>
    intro st
    rw [List.foldl_cons, ih, processItem_errors]
    by_cases h : (convert_mp4_to_mp3 r.ffmpeg).isOk <;>
      simp [failuresOf, List.filter_cons, h]

theorem foldl_processItem_zipCreated (runs : List ItemRun) :
    ∀ st : BatchState, (runs.foldl processItem st).zipCreated = st.zipCreated := by
  induction runs with
  | nil => intro st; rfl
  | cons r rs ih => intro st; rw [List.foldl_cons, ih, processItem_zipCreated]

theorem foldl_processItem_zipEntries (runs : List ItemRun) :
    ∀ st : BatchState, (runs.foldl processItem st).zipEntries = st.zipEntries := by
  induction runs with
  | nil => intro st; rfl
  | cons r rs ih => intro st; rw [List.foldl_cons, ih, processItem_zipEntries]

theorem foldl_processItem_ws_mem (runs : List ItemRun) :
    ∀ (st : BatchState) (n : String), n ∈ (runs.foldl processItem st).ws →
      n ∈ st.ws ∨ n ∈ runs.map (fun r => mp3NameOf r.item.name) := by
  induction runs with
  | nil => intro st n h; exact Or.inl h
  | cons r rs ih =>
    intro st n h
    rcases ih (processItem st r) n h with h1 | h1
    · rw [processItem_ws] at h1
      by_cases he : r.ffmpeg.outExists
      · simp only [he, if_true] at h1
        by_cases hm : mp3NameOf r.item.name ∈ st.ws
        · simp only [hm, if_true] at h1; exact Or.inl h1
        · simp only [hm, if_false] at h1
          rcases List.mem_append.mp h1 with h2 | h2
          · exact Or.inl h2
          · simp at h2; subst h2; right; simp
      · rw [if_neg he] at h1
        exact Or.inl (List.mem_of_mem_filter h1)
    · right; simp [h1]

theorem runBatch_converted (ws : List String) (runs : List ItemRun) :
    (runBatch ws runs).converted = successesOf runs := by
  simp only [runBatch]
  split <;> simp [foldl_processItem_converted runs, initState]

theorem runBatch_errors (ws : List String) (runs : List ItemRun) :
    (runBatch ws runs).errors = failuresOf runs := by
  simp only [runBatch]
  split <;> simp [foldl_processItem_errors runs, initState]

/-- C1: every batch run terminates with a complete result set: the successes
list is exactly the output paths of the items whose conversion succeeded and
the failures list is exactly the formatted name-message strings of the items
whose conversion failed, both in upload order (filter preserves order), and
together they account for every accepted item exactly once (the lengths add
up to the number of items).  No oracle value - in particular no failing
item - can break these equalities, so one failure never aborts the batch,
and each item is consulted exactly once in the fold. -/
theorem batch_complete_result_set (ws : List String) (runs : List ItemRun) :
    (runBatch ws runs).converted = successesOf runs ∧
    (runBatch ws runs).errors = failuresOf runs ∧
    (runBatch ws runs).converted.length + (runBatch ws runs).errors.length
      = runs.length := by
  have hc := runBatch_converted ws runs
  have he := runBatch_errors ws runs
  refine ⟨hc, he, ?_⟩
  rw [hc, he]
  unfold successesOf failuresOf
  rw [List.length_map, List.length_map]
  exact (List.length_eq_length_filter_add
    (fun r : ItemRun => (convert_mp4_to_mp3 r.ffmpeg).isOk)).symm

/-- C8: running a batch over the empty accepted queue performs exactly the
Workspace clear and nothing else: empty successes, empty failures, no
temporary files, and the Bundler is never invoked (no bundle flag, no
entries). -/
theorem runBatch_empty_queue (ws : List String) :
    runBatch ws [] =
      { ws := resetWorkspace ws, temps := [], converted := [],
        errors := [], zipCreated := false, zipEntries := [] } := rfl

/-- C9: the temporary input copy of an item is deleted before the per-item
step completes, on every exit path of the conversion (the oracle in r covers
success, nonzero exit, missing or empty output, timeout and launch failure
alike): after processItem the temporary name is gone, and the surviving
temporary files are exactly the previous ones other than that name. -/
theorem temp_file_removed_every_path (st : BatchState) (r : ItemRun) :
    (processItem st r).temps = st.temps.filter (fun n => n ≠ r.tmpName) ∧
    r.tmpName ∉ (processItem st r).temps := by
  have h1 : (processItem st r).temps = st.temps.filter (fun n => n ≠ r.tmpName) := by
    by_cases h : (convert_mp4_to_mp3 r.ffmpeg).isOk <;>
      simp [processItem, h, List.filter_append]
  refine ⟨h1, ?_⟩
  rw [h1]
  intro hmem
  have := List.of_mem_filter hmem
  simp at this

/-- C10: the clearing step removes exactly the files matching the output
pattern (base name ending in .mp3) and the fixed bundle file todos_mp3.zip:
any other file of the Workspace survives a reset, a reset never invents
files, and a file removed by a reset was an output file or the bundle. -/
theorem reset_removes_only_outputs_and_zip (ws : List String) (n : String) :
    (n ∈ ws → strEndsWith n ".mp3" = false → n ≠ zipName →
      n ∈ resetWorkspace ws) ∧
    (n ∈ resetWorkspace ws → n ∈ ws) ∧
    (n ∈ ws → n ∉ resetWorkspace ws →
      strEndsWith n ".mp3" = true ∨ n = zipName) := by
  refine ⟨?_, ?_, ?_⟩
  · intro hmem hmp3 hzip
    refine List.mem_filter.mpr ⟨hmem, ?_⟩
    simp [hmp3, hzip]
  · intro h; exact List.mem_of_mem_filter h
  · intro hmem hnot
    by_contra hcon
    push_neg at hcon
    exact hnot (List.mem_filter.mpr ⟨hmem, by simp [hcon.1, hcon.2]⟩)

/-- C10 witness: a concrete reset keeps an unrelated file. -/
theorem reset_removes_only_outputs_and_zip_witness :
    "keep.txt" ∈ resetWorkspace ["keep.txt", "a.mp3", "todos_mp3.zip"] :=
  (reset_removes_only_outputs_and_zip ["keep.txt", "a.mp3", "todos_mp3.zip"]
    "keep.txt").1 (by decide) (by decide) (by decide)

/-- C4: validate_file is a pure function of (name, size) - items with equal
metadata get equal verdicts - and applies the rules in source order with
first match winning: wrong extension under case-insensitive comparison is
rejected naming the file; otherwise size zero is rejected as empty;
otherwise size above 500 MiB is rejected as exceeding the limit; otherwise
the item is accepted with the empty reason. -/
theorem validate_rules_in_order (f : UploadedItem) :
    (strEndsWith (lowerStr f.name) ".mp4" = false →
      validate_file f = (false, "'" ++ f.name ++ "' não é um arquivo .mp4")) ∧
    (strEndsWith (lowerStr f.name) ".mp4" = true → f.size = 0 →
      validate_file f = (false, "'" ++ f.name ++ "' está vazio")) ∧
    (strEndsWith (lowerStr f.name) ".mp4" = true → f.size ≠ 0 →
      f.size > 500 * 1024 * 1024 →
      validate_file f = (false, "'" ++ f.name ++ "' excede 500 MB")) ∧
    (strEndsWith (lowerStr f.name) ".mp4" = true → f.size ≠ 0 →
      f.size ≤ 500 * 1024 * 1024 → validate_file f = (true, "")) ∧
    (∀ g : UploadedItem, g.name = f.name → g.size = f.size →
      validate_file g = validate_file f) := by
  refine ⟨?_, ?_, ?_, ?_, ?_⟩
  · intro h; simp [validate_file, h]
  · intro h hz; simp [validate_file, h, hz]
  · intro h hz hbig; simp [validate_file, h, hz, hbig]
  · intro h hz hsmall
    simp [validate_file, h, hz, Nat.not_lt.mpr hsmall]
  · intro g hn hs
    cases g; cases f
    simp_all

/-- C4 witness: a well-formed item with an upper-case extension is accepted
with the empty reason. -/
theorem validate_rules_in_order_witness :
    validate_file { name := "video.MP4", size := 1000 } = (true, "") :=
  (validate_rules_in_order { name := "video.MP4", size := 1000 }).2.2.2.1
    (by decide) (by decide) (by decide)

/-- C6 counterexample: the probe catches only FileNotFoundError and
TimeoutExpired, so a different launch exception (for example a
PermissionError when the binary exists but is not executable) propagates
past the probe boundary instead of collapsing to a boolean, refuting the
claim that no exception of any kind propagates. -/
theorem probe_exception_escapes :
    check_ffmpeg (.otherError "[Errno 13] Permission denied: 'ffmpeg'")
      = .error "[Errno 13] Permission denied: 'ffmpeg'" ∧
    ¬ ∃ b : Bool, check_ffmpeg (.otherError "[Errno 13] Permission denied: 'ffmpeg'")
      = .ok b := by
  refine ⟨rfl, ?_⟩
  rintro ⟨b, hb⟩
  simp [check_ffmpeg] at hb

/-- C6 amended: the probe returns true exactly when the tool is found and
exits with code zero within the timeout; binary-not-found, timeout and
nonzero exit each yield false; but only FileNotFoundError and
TimeoutExpired are caught, so any other launch exception propagates past
the probe (see the counterexample) rather than collapsing to a boolean. -/
theorem probe_boolean_cases (rc : Int) (stderr : List Char) (m : String) :
    (check_ffmpeg (.exited rc stderr) = .ok true ↔ rc = 0) ∧
    check_ffmpeg (.notFound m) = .ok false ∧
    check_ffmpeg .timedOut = .ok false ∧
    (rc ≠ 0 → check_ffmpeg (.exited rc stderr) = .ok false) ∧
    (∀ run : LaunchOutcome, check_ffmpeg run = .ok true →
      ∃ s, run = .exited 0 s) := by
  refine ⟨?_, rfl, rfl, ?_, ?_⟩
  · simp [check_ffmpeg]
  · intro h; simp [check_ffmpeg, h]
  · intro run h
    cases run with
    | exited rc' s =>
      simp [check_ffmpeg] at h
      exact ⟨s, by rw [h]⟩
    | notFound m' => simp [check_ffmpeg] at h
    | timedOut => simp [check_ffmpeg] at h
    | otherError m' => simp [check_ffmpeg] at h

/-- C6 witness: the probe accepts a clean zero exit. -/
theorem probe_boolean_cases_witness :
    check_ffmpeg (.exited 0 []) = .ok true :=
  (probe_boolean_cases 0 [] "").1.mpr rfl

theorem mp3NameOf_endsWith (x : String) :
    strEndsWith (mp3NameOf x) ".mp3" = true := by
  unfold strEndsWith mp3NameOf
  rw [String.data_append]
  exact decide_eq_true (List.suffix_append _ _)

theorem runBatch_ws_artifact (ws : List String) (runs : List ItemRun)
    (n : String) (h : n ∈ (runBatch ws runs).ws) :
    n ∈ resetWorkspace ws ∨
    n ∈ runs.map (fun r => mp3NameOf r.item.name) ∨
    (n = zipName ∧ (runBatch ws runs).zipCreated = true) := by
  have hbase : ∀ m, m ∈ (runs.foldl processItem (initState ws)).ws →
      m ∈ resetWorkspace ws ∨ m ∈ runs.map (fun r => mp3NameOf r.item.name) := by
    intro m hm
    simpa [initState] using foldl_processItem_ws_mem runs (initState ws) m hm
  by_cases hc : (runs.foldl processItem (initState ws)).converted.length > 1
  · simp only [runBatch] at h ⊢
    rw [if_pos hc] at h ⊢
    simp only [create_zip] at h
    by_cases hz : zipName ∈ (runs.foldl processItem (initState ws)).ws
    · rw [if_pos hz] at h
      rcases hbase n h with h1 | h1
      · exact Or.inl h1
      · exact Or.inr (Or.inl h1)
    · rw [if_neg hz] at h
      rcases List.mem_append.mp h with h1 | h1
      · rcases hbase n h1 with h2 | h2
        · exact Or.inl h2
        · exact Or.inr (Or.inl h2)
      · simp only [List.mem_singleton] at h1
        exact Or.inr (Or.inr ⟨h1, rfl⟩)
  · simp only [runBatch] at h
    rw [if_neg hc] at h
    rcases hbase n h with h1 | h1
    · exact Or.inl h1
    · exact Or.inr (Or.inl h1)

/-- C2: the clearing step leaves a Workspace with zero output files and no
bundle (first conjunct: an artifact-shaped name, an output file name or the
bundle name, is never in the cleared Workspace - which is the Workspace
before any new output is written, since runBatch folds processItem over
initState), and no artifact of a prior batch is ever exposed by a later
batch (second conjunct: an artifact-shaped name found in the Workspace after
a batch is an output of that very batch or the bundle that batch created). -/
theorem clearing_no_stale_artifacts (ws : List String) (runs : List ItemRun)
    (n : String) (hart : strEndsWith n ".mp3" = true ∨ n = zipName) :
    n ∉ resetWorkspace ws ∧
    (n ∈ (runBatch ws runs).ws →
      n ∈ runs.map (fun r => mp3NameOf r.item.name) ∨
      (n = zipName ∧ (runBatch ws runs).zipCreated = true)) := by
  have h1 : n ∉ resetWorkspace ws := by
    intro hmem
    have h2 := List.of_mem_filter hmem
    rcases hart with h | h
    · rw [h] at h2; simp at h2
    · subst h; simp at h2
  exact ⟨h1, fun hmem => (runBatch_ws_artifact ws runs n hmem).resolve_left h1⟩

/-- C2 witness: a concrete stale output file is gone right after the clear. -/
theorem clearing_no_stale_artifacts_witness :
    "old.mp3" ∉ resetWorkspace ["old.mp3", "keep.txt"] :=
  (clearing_no_stale_artifacts ["old.mp3", "keep.txt"] [] "old.mp3"
    (Or.inl (by decide))).1

theorem mem_pathName_no_slash (p : String) : '/' ∉ (pathName p).data := by
  intro h
  replace h : '/' ∈ (p.data.reverse.takeWhile (fun c => c ≠ '/')).reverse := h
  rw [List.mem_reverse] at h
  have := List.mem_takeWhile_imp h
  simp at this

theorem pyStem_no_slash (p : String) : '/' ∉ (pyStem p).data := by
  intro h
  simp only [pyStem] at h
  split at h
  · split at h
    · replace h : '/' ∈ (pathName p).data.take _ := h
      exact mem_pathName_no_slash p (List.mem_of_mem_take h)
    · exact mem_pathName_no_slash p h
  · exact mem_pathName_no_slash p h

theorem takeWhile_stops (p : Char → Bool) (x : Char) (hx : p x = false) :
    ∀ (l₁ l₂ : List Char), (∀ c ∈ l₁, p c = true) →
      (l₁ ++ x :: l₂).takeWhile p = l₁ := by
  intro l₁
  induction l₁ with
  | nil => intro l₂ _; simp [List.takeWhile_cons, hx]
  | cons a t ih =>
    intro l₂ hall
    have ha : p a = true := hall a (by simp)
    simp [List.takeWhile_cons, ha, ih l₂ (fun c hc => hall c (by simp [hc]))]

theorem pathName_output_prefix (b : String) (hb : '/' ∉ b.data) :
    pathName ("output/" ++ b) = b := by
  unfold pathName
  rw [String.data_append, List.reverse_append]
  have hout : ("output/" : String).data.reverse
      = '/' :: ['t', 'u', 'p', 't', 'u', 'o'] := by decide
  rw [hout]
  rw [takeWhile_stops _ '/' (by simp) b.data.reverse ['t', 'u', 'p', 't', 'u', 'o']
    (fun c hc => by
      rw [List.mem_reverse] at hc
      simp only [decide_eq_true_eq]
      exact fun he => hb (he ▸ hc))]
  rw [List.reverse_reverse]

theorem pathName_outputPathOf (x : String) :
    pathName (outputPathOf x) = mp3NameOf x := by
  unfold outputPathOf
  apply pathName_output_prefix
  unfold mp3NameOf
  rw [String.data_append]
  intro h
  rcases List.mem_append.mp h with h1 | h1
  · exact pyStem_no_slash x h1
  · replace h1 : '/' ∈ (".mp3" : String).data := h1
    exact absurd h1 (by decide)

/-- Two uploads that both carry the name a.mp4 and both convert
successfully: the batch the counterexample for C3 evaluates. -/
def dupNameBatch : BatchState :=
  runBatch []
    [ { item := { name := "a.mp4", size := 5 }, tmpName := "t1",
        ffmpeg := { outcome := .exited 0 [], outExists := true, outSize := 10 } },
      { item := { name := "a.mp4", size := 5 }, tmpName := "t2",
        ffmpeg := { outcome := .exited 0 [], outExists := true, outSize := 10 } } ]

/-- C3 counterexample: two accepted items with the same base name that both
succeed give two successes, so a bundle is produced, and its entry list has
the duplicate entry a.mp3 twice - refuting the claim that the entries have
no duplicates for every batch (the source writes each converted path into
the archive under its base name with no deduplication; the second item had
overwritten the output of the first, last write wins). -/
theorem duplicate_names_duplicate_zip_entries :
    dupNameBatch.zipCreated = true ∧
    dupNameBatch.zipEntries = ["a.mp3", "a.mp3"] ∧
    ¬ dupNameBatch.zipEntries.Nodup := by decide

/-- C3 amended: a bundle is produced if and only if the batch has strictly
more than one success; when produced, its entries are exactly the base
names of the successful outputs, flat and in order, and they are
duplicate-free whenever those base names are pairwise distinct (two
accepted items with the same stem produce duplicate entries, see the
counterexample); with at most one success no bundle and no entries exist. -/
theorem bundle_iff_and_entries (ws : List String) (runs : List ItemRun) :
    ((runBatch ws runs).zipCreated = true ↔
      (runBatch ws runs).converted.length > 1) ∧
    ((runBatch ws runs).zipCreated = true →
      (runBatch ws runs).zipEntries =
        (runs.filter (fun r => (convert_mp4_to_mp3 r.ffmpeg).isOk)).map
          (fun r => mp3NameOf r.item.name)) ∧
    ((runBatch ws runs).zipCreated = false →
      (runBatch ws runs).zipEntries = []) ∧
    (((runs.filter (fun r => (convert_mp4_to_mp3 r.ffmpeg).isOk)).map
        (fun r => mp3NameOf r.item.name)).Nodup →
      (runBatch ws runs).zipEntries.Nodup) := by
  have hfoldconv : (runs.foldl processItem (initState ws)).converted
      = successesOf runs := by
    rw [foldl_processItem_converted]; simp [initState]
  have hA : (runBatch ws runs).zipCreated = true ↔
      (runBatch ws runs).converted.length > 1 := by
    simp only [runBatch]
    split <;> rename_i hc
    · exact ⟨fun _ => hc, fun _ => rfl⟩
    · constructor
      · intro hk
        rw [foldl_processItem_zipCreated] at hk
        simp [initState] at hk
      · intro hk; exact absurd hk hc
  have hB : (runBatch ws runs).zipCreated = true →
      (runBatch ws runs).zipEntries =
        (runs.filter (fun r => (convert_mp4_to_mp3 r.ffmpeg).isOk)).map
          (fun r => mp3NameOf r.item.name) := by
    simp only [runBatch]
    split <;> rename_i hc
    · intro _
      simp only [create_zip]
      rw [hfoldconv]
      unfold successesOf
      rw [List.map_map]
      exact List.map_congr_left (fun a _ => pathName_outputPathOf a.item.name)
    · intro hk
      rw [foldl_processItem_zipCreated] at hk
      simp [initState] at hk
  have hC : (runBatch ws runs).zipCreated = false →
      (runBatch ws runs).zipEntries = [] := by
    simp only [runBatch]
    split <;> rename_i hc
    · intro hk; simp at hk
    · intro _
      rw [foldl_processItem_zipEntries]
      rfl
  refine ⟨hA, hB, hC, fun hnd => ?_⟩
  cases hzv : (runBatch ws runs).zipCreated with
  | false => rw [hC hzv]; exact List.nodup_nil
  | true => rw [hB hzv]; exact hnd

/-- Two distinct uploads that both convert successfully: the witness batch
for C3. -/
def twoSuccessRuns : List ItemRun :=
  [ { item := { name := "a.mp4", size := 5 }, tmpName := "t1",
      ffmpeg := { outcome := .exited 0 [], outExists := true, outSize := 10 } },
    { item := { name := "b.mp4", size := 6 }, tmpName := "t2",
      ffmpeg := { outcome := .exited 0 [], outExists := true, outSize := 12 } } ]

/-- C3 witness: a concrete batch with two distinct successes bundles
exactly their two base names. -/
theorem bundle_iff_and_entries_witness :
    (runBatch [] twoSuccessRuns).zipEntries =
      (twoSuccessRuns.filter (fun r => (convert_mp4_to_mp3 r.ffmpeg).isOk)).map
        (fun r => mp3NameOf r.item.name) ∧
    (runBatch [] twoSuccessRuns).zipEntries = ["a.mp3", "b.mp3"] :=
  ⟨(bundle_iff_and_entries [] twoSuccessRuns).2.1 (by decide), by decide⟩

/-- The per-item state after processing a timed-out conversion whose
external process had already written a partial output file: the C5
counterexample evaluates this state. -/
def timeoutItemState : BatchState :=
  processItem
    { ws := [], temps := [], converted := [], errors := [],
      zipCreated := false, zipEntries := [] }
    { item := { name := "a.mp4", size := 5 }, tmpName := "t1",
      ffmpeg := { outcome := .timedOut, outExists := true, outSize := 777 } }

/-- C5 counterexample: a conversion that times out after ffmpeg already
wrote a partial a.mp3 is recorded as a timeout failure, yet the partial
output file is still in the Workspace afterwards - the code has no cleanup
of the output path on the timeout branch, refuting the claim that no output
file for that item is left behind. -/
theorem timeout_partial_output_left_behind :
    timeoutItemState.errors
      = ["a.mp4" ++ ": " ++ "Timeout: conversão demorou mais de 5 minutos."] ∧
    "a.mp3" ∈ timeoutItemState.ws := by decide

/-- C5 amended: a conversion that exceeds the timeout is recorded as a
failure with the timeout-specific message and contributes no success, but
the output path is left in whatever state the killed external process left
it: if a partial output file exists after the run, it stays in the
Workspace (until the next batch clears it) - see the counterexample. -/
theorem timeout_failure_recorded (st : BatchState) (r : ItemRun)
    (h : r.ffmpeg.outcome = .timedOut) :
    (processItem st r).errors = st.errors ++
      [r.item.name ++ ": " ++ "Timeout: conversão demorou mais de 5 minutos."] ∧
    (processItem st r).converted = st.converted ∧
    (r.ffmpeg.outExists = true →
      mp3NameOf r.item.name ∈ (processItem st r).ws) := by
  have hres : convert_mp4_to_mp3 r.ffmpeg
      = .fail "Timeout: conversão demorou mais de 5 minutos." := by
    unfold convert_mp4_to_mp3
    rw [h]
  refine ⟨?_, ?_, ?_⟩
  · rw [processItem_errors, hres]
    simp [ConvResult.isOk, ConvResult.errMsg]
  · rw [processItem_converted, hres]
    simp [ConvResult.isOk]
  · intro he
    rw [processItem_ws, he]
    simp only [if_true]
    by_cases hm : mp3NameOf r.item.name ∈ st.ws
    · rw [if_pos hm]; exact hm
    · rw [if_neg hm]; simp

/-- C5 witness: a concrete timed-out item is recorded as a timeout failure. -/
theorem timeout_failure_recorded_witness :
    (processItem
      { ws := [], temps := [], converted := [], errors := [],
        zipCreated := false, zipEntries := [] }
      { item := { name := "b.mp4", size := 5 }, tmpName := "t9",
        ffmpeg := { outcome := .timedOut, outExists := false, outSize := 0 } }).errors
      = [] ++ ["b.mp4" ++ ": " ++ "Timeout: conversão demorou mais de 5 minutos."] :=
  (timeout_failure_recorded
    { ws := [], temps := [], converted := [], errors := [],
      zipCreated := false, zipEntries := [] }
    { item := { name := "b.mp4", size := 5 }, tmpName := "t9",
      ffmpeg := { outcome := .timedOut, outExists := false, outSize := 0 } } rfl).1

theorem head?_dropWhile_false (p : Char → Bool) :
    ∀ (l : List Char) (c : Char), (l.dropWhile p).head? = some c → p c = false := by
  intro l
  induction l with
  | nil => intro c h; simp at h
  | cons a t ih =>
    intro c h
    by_cases hp : p a
    · rw [List.dropWhile_cons_of_pos hp] at h
      exact ih c h
    · rw [List.dropWhile_cons_of_neg hp] at h
      simp at h
      subst h
      exact Bool.eq_false_iff.mpr hp

theorem pyStrip_getLast_not_space (s : List Char) (c : Char)
    (h : (pyStrip s).getLast? = some c) : pyIsSpace c = false := by
  unfold pyStrip at h
  rw [List.getLast?_reverse] at h
  exact head?_dropWhile_false pyIsSpace _ c h

theorem getLast?_cons_ne {α : Type} (a : α) (l : List α) (h : l ≠ []) :
    (a :: l).getLast? = l.getLast? := by
  cases l with
  | nil => exact absurd rfl h
  | cons b t => exact List.getLast?_cons_cons

theorem splitNlAux_cons (c : Char) (cs : List Char) :
    splitNlAux (c :: cs) =
      if c = '\n' then ([], (splitNlAux cs).1 :: (splitNlAux cs).2)
      else (c :: (splitNlAux cs).1, (splitNlAux cs).2) := rfl

theorem splitNl_cons (c : Char) (cs : List Char) :
    splitNl (c :: cs) =
      if c = '\n' then [] :: splitNl cs
      else (c :: (splitNlAux cs).1) :: (splitNlAux cs).2 := by
  simp only [splitNl, splitNlAux_cons]
  by_cases hc : c = '\n' <;> simp [hc, splitNl]

theorem splitNl_ne_nil (l : List Char) : splitNl l ≠ [] := by
  simp [splitNl]

theorem splitNl_getLast_ne_nil :
    ∀ (l : List Char), l ≠ [] → l.getLast? ≠ some '\n' →
      ∃ v, (splitNl l).getLast? = some v ∧ v ≠ [] := by
  intro l
  induction l with
  | nil => intro h; exact absurd rfl h
  | cons c cs ih =>
    intro _ hlast
    cases cs with
    | nil =>
      have hc : ¬ (c = '\n') := by
        intro e
        exact hlast (by simp [e])
      refine ⟨[c], ?_, by simp⟩
      simp [splitNl, splitNlAux, hc]
    | cons d ds =>
      have hlast2 : (d :: ds).getLast? ≠ some '\n' := by
        rwa [getLast?_cons_ne c (d :: ds) (by simp)] at hlast
      obtain ⟨v, hv, hvne⟩ := ih (by simp) hlast2
      rw [splitNl_cons]
      by_cases hc : c = '\n'
      · refine ⟨v, ?_, hvne⟩
        rw [if_pos hc]
        rw [getLast?_cons_ne _ _ (splitNl_ne_nil (d :: ds))]
        exact hv
      · rw [if_neg hc]
        cases haux : (splitNlAux (d :: ds)).2 with
        | nil =>
          exact ⟨c :: (splitNlAux (d :: ds)).1, by simp, by simp⟩
        | cons a t =>
          refine ⟨v, ?_, hvne⟩
          rw [getLast?_cons_ne _ _ (by simp)]
          have hsp : (splitNl (d :: ds)).getLast? = (a :: t).getLast? := by
            simp only [splitNl]
            rw [haux]
            exact getLast?_cons_ne _ _ (by simp)
          rw [← hsp]
          exact hv

theorem filter_getLast_of_last :
    ∀ (L : List (List Char)) (v : List Char), L.getLast? = some v → v ≠ [] →
      (L.filter (fun x => !x.isEmpty)).getLast? = some v := by
  intro L
  induction L with
  | nil => intro v hv _; simp at hv
  | cons x t ih =>
    intro v hv hvne
    cases t with
    | nil =>
      simp at hv
      subst hv
      have hx : (!x.isEmpty) = true := by
        cases x with
        | nil => exact absurd rfl hvne
        | cons _ _ => rfl
      simp [List.filter_cons, hx]
    | cons y u =>
      rw [getLast?_cons_ne x (y :: u) (by simp)] at hv
      have hrec := ih v hv hvne
      have hne : (y :: u).filter (fun x => !x.isEmpty) ≠ [] := by
        intro e
        rw [e] at hrec
        simp at hrec
      rw [List.filter_cons]
      by_cases hx : (!x.isEmpty) = true
      · rw [if_pos hx]
        rw [getLast?_cons_ne _ _ hne]
        exact hrec
      · rw [if_neg hx]
        exact hrec

theorem codeLast_eq_spec_of_strip (s : List Char) :
    codeLastStderrLine s = specLastNonEmptyLine (pyStrip s) := by
  by_cases h : pyStrip s = []
  · simp only [codeLastStderrLine, specLastNonEmptyLine, h]
    rfl
  · have hex : ∃ c, (pyStrip s).getLast? = some c := by
      cases hg : (pyStrip s).getLast? with
      | none => exact absurd (List.getLast?_eq_none_iff.mp hg) h
      | some c => exact ⟨c, rfl⟩
    obtain ⟨c, hc⟩ := hex
    have hns : pyIsSpace c = false := pyStrip_getLast_not_space s c hc
    have hnn : (pyStrip s).getLast? ≠ some '\n' := by
      rw [hc]
      intro e
      injection e with e2
      rw [e2] at hns
      simp [pyIsSpace] at hns
    obtain ⟨v, hv, hvne⟩ := splitNl_getLast_ne_nil (pyStrip s) h hnn
    have hf := filter_getLast_of_last (splitNl (pyStrip s)) v hv hvne
    simp only [codeLastStderrLine, specLastNonEmptyLine]
    rw [List.getLastD_eq_getLast?, List.getLastD_eq_getLast?, hv, hf]

/-- C7 counterexample: for the diagnostic stream with the lines a, b-space
and an empty trailer, the code reports the message b, while the literal
last non-empty line of the stream is b-space (the line is not the empty
string): the code first strips surrounding whitespace from the whole
stream, so trailing whitespace of the last non-blank line is lost, and the
message is not always the last non-empty line as claimed. -/
theorem stderr_last_line_whitespace_mismatch :
    convert_mp4_to_mp3
      { outcome := .exited 1 ("a\nb \n".data), outExists := false, outSize := 0 }
      = .fail "b" ∧
    specLastNonEmptyLine ("a\nb \n".data) = "b ".data ∧
    ("b" : String) ≠ "b " := by decide

/-- C7 amended: on nonzero exit the failure message is the last non-empty
line of the whitespace-stripped diagnostic stream (equivalently Python
stderr.strip().split at newline, last field): surrounding whitespace of the
stream is removed first, so the message can differ from the literal last
non-empty line only in such whitespace (see the counterexample). -/
theorem nonzero_exit_error_message (rc : Int) (stderr : List Char)
    (oe : Bool) (os : Nat) (h : rc ≠ 0) :
    convert_mp4_to_mp3
      { outcome := .exited rc stderr, outExists := oe, outSize := os }
      = .fail (String.mk (specLastNonEmptyLine (pyStrip stderr))) := by
  have hstep : convert_mp4_to_mp3
      { outcome := .exited rc stderr, outExists := oe, outSize := os }
      = .fail (String.mk (codeLastStderrLine stderr)) := by
    unfold convert_mp4_to_mp3
    simp [h]
  rw [hstep, codeLast_eq_spec_of_strip]

/-- C7 witness: a concrete failing conversion reports the last non-empty
stderr line. -/
theorem nonzero_exit_error_message_witness :
    convert_mp4_to_mp3
      { outcome := .exited 1 ("Error: bad file\nUnsupported codec".data),
        outExists := false, outSize := 0 }
      = .fail (String.mk (specLastNonEmptyLine
          (pyStrip ("Error: bad file\nUnsupported codec".data)))) ∧
    String.mk (specLastNonEmptyLine
      (pyStrip ("Error: bad file\nUnsupported codec".data)))
      = "Unsupported codec" :=
  ⟨nonzero_exit_error_message 1 ("Error: bad file\nUnsupported codec".data)
    false 0 (by decide), by decide⟩
